import Mathlib

/-!
Verification of the dynamic questionnaire engine of the medical_platform
repository (apps `questionnaires`), following the structure of
`src/questionnaires/models.py`, `src/questionnaires/forms.py`,
`src/questionnaires/views.py` and `src/questionnaires/views_builder.py`.
Python form values are modelled by `PyValue`; Django model rows by the
structures `Question`, `QuestionOption`, `Answer`, `Questionnaire`; the
persisted `Answer` table for one request by a `List Answer`.  Components of
the engine that the repository references (tests `test_branching.py`,
`test_forms.py`, callers in `views_builder.py`) but whose definitions are not
present in the source tree (the branch evaluator and
`Question.get_display_number`) are modelled from the specification and marked
as such in their doc comments.
-/

/-- Value of one cleaned form field, as Django hands it to
`ResponseForm.save_answers`: `None`, a string (Char/Email/Choice fields), a
list of strings (MultipleChoiceField), a float (FloatField, modelled as a
rational since no float arithmetic is exercised), a date (DateField, modelled
as an ordinal), or an uploaded file (represented by its name). -/
inductive PyValue where
  | none
  | str (s : String)
  | strList (l : List String)
  | num (x : Rat)
  | date (d : Int)
  | file (name : String)
  deriving Repr, DecidableEq

/-- Python truthiness of a cleaned value: `''`, `[]`, `None`, `0` and a file
with an empty name are falsy, everything else is truthy. -/
def PyValue.truthy : PyValue → Bool
  | .none => false
  | .str s => s != ""
  | .strList l => !l.isEmpty
  | .num x => x != 0
  | .date _ => true
  | .file n => n != ""

/-- Python `str(value)`.  Only the `str` branch is exercised by the engine
(the other constructors reach `str()` only on unreachable paths); their
renderings are abstracted by `toString`. -/
def PyValue.pyStr : PyValue → String
  | .none => "None"
  | .str s => s
  | .strList l => toString l
  | .num x => toString x
  | .date d => toString d
  | .file n => n

/-- Row of `QuestionOption` (models.py lines 207-226); `option_image` and
`is_image_primary` only affect presentation and are omitted. -/
structure QuestionOption where
  id : Nat
  text : String
  value : String
  display_order : Nat
  deriving Repr, DecidableEq

/-- Row of `Question` (models.py lines 84-152).  `options` embeds the related
`QuestionOption` set, stored in `display_order` (the related queryset's
`Meta` ordering), so `get_options` is the identity on it.  `help_text`,
`allowed_file_types`, `max_file_size` and the rating labels only affect
widget attributes and are omitted; `min_value`/`max_value` are declared
`FloatField` in the source but are consumed only through `int()` casts
(rating choices), so they are modelled as integers. -/
structure Question where
  id : Nat
  questionnaire_id : Nat
  text : String
  question_type : String
  is_required : Bool
  display_order : Nat
  depends_on_question : Option Nat
  depends_on_value : Option String
  min_value : Option Int
  max_value : Option Int
  options : List QuestionOption
  deriving Repr, DecidableEq

/-- Question type constant (models.py line 88). -/
def Question.TYPE_TEXT : String := "text"

/-- Question type constant (models.py line 89). -/
def Question.TYPE_TEXTAREA : String := "textarea"

/-- Question type constant (models.py line 90). -/
def Question.TYPE_RADIO : String := "radio"

/-- Question type constant (models.py line 91). -/
def Question.TYPE_CHECKBOX : String := "checkbox"

/-- Question type constant (models.py line 92). -/
def Question.TYPE_SELECT : String := "select"

/-- Question type constant (models.py line 93). -/
def Question.TYPE_RATING : String := "rating"

/-- Question type constant (models.py line 94). -/
def Question.TYPE_DATE : String := "date"

/-- Question type constant (models.py line 95). -/
def Question.TYPE_EMAIL : String := "email"

/-- Question type constant (models.py line 96). -/
def Question.TYPE_NUMBER : String := "number"

/-- Question type constant (models.py line 97). -/
def Question.TYPE_FILE : String := "file"

/-- Model of `Question.get_options` (models.py lines 173-175): the related
options ordered by `display_order`, which is how `options` is stored. -/
def Question.get_options (q : Question) : List QuestionOption := q.options

/-- Row of `Answer` (models.py lines 308-332): one row per
`(response, question)` pair holding the kind-specific value slots side by
side.  `option_answer` is the many-to-many set of selected option ids; a
`file_answer` is represented by its stored name. -/
structure Answer where
  response_id : Nat
  question_id : Nat
  text_answer : String
  number_answer : Option Rat
  date_answer : Option Int
  file_answer : Option String
  option_answer : List Nat
  deriving Repr, DecidableEq

/-- Row of `Questionnaire` (models.py lines 9-62) with its owned questions. -/
structure Questionnaire where
  id : Nat
  title : String
  is_active : Bool
  questions : List Question
  deriving Repr, DecidableEq

/-- Model of `Questionnaire.is_complete` (models.py lines 74-81): true iff no
question of the questionnaire with `is_required=True` is outside the set of
question ids that have an `Answer` row in the given response. -/
def Questionnaire.is_complete (qn : Questionnaire) (answers : List Answer) : Bool :=
  !(qn.questions.any (fun q => q.is_required && !(answers.any (fun a => a.question_id == q.id))))

/-- Cleaned data of a bound `ResponseForm`: the entry keyed by question id
`i` models the cleaned value of the form field named `question_{i}` (field
names are in bijection with question ids, forms.py line 191). -/
abbrev CleanedData := List (Nat × PyValue)

/-- Model of `cleaned_data.get(field_name)` / `field_name in cleaned_data`:
first entry for the given question id, if any. -/
def cleanedGet (cd : CleanedData) (qid : Nat) : Option PyValue :=
  (cd.find? (fun p => p.1 == qid)).map (·.2)

/-- Model of `ResponseForm.clean` (forms.py lines 316-325): the ids of the
questions that receive the field error `This field is required.`.  The loop
runs over `self.questions`, which is every question of the questionnaire
(forms.py line 180), and adds the error whenever the question is required and
the cleaned value is falsy or absent. -/
def ResponseForm.clean (questions : List Question) (cd : CleanedData) : List Nat :=
  (questions.filter
    (fun q => q.is_required && !((cleanedGet cd q.id).getD PyValue.none).truthy)).map (·.id)

/-- Freshly created `Answer` row of `get_or_create` with its defaults
(forms.py lines 345-349): `text_answer=''`, every other slot empty. -/
def Answer.new (resp qid : Nat) : Answer :=
  { response_id := resp, question_id := qid, text_answer := ""
    number_answer := Option.none, date_answer := Option.none
    file_answer := Option.none, option_answer := [] }

/-- Model of the slot-clearing block of `ResponseForm.save_answers`
(forms.py lines 352-355): `option_answer.clear()`, `text_answer = ''`,
`number_answer = None`, `date_answer = None`.  The source does not clear
`file_answer`. -/
def clearSlots (a : Answer) : Answer :=
  { a with option_answer := [], text_answer := ""
           number_answer := Option.none, date_answer := Option.none }

/-- Model of the per-type update block of `ResponseForm.save_answers`
(forms.py lines 357-378), applied after `clearSlots`. -/
def updateAnswerValue (q : Question) (v : PyValue) (a : Answer) : Answer :=
  if q.question_type == Question.TYPE_RADIO || q.question_type == Question.TYPE_SELECT then
    if v.truthy then
      match q.get_options.find? (fun o => o.value == v.pyStr) with
      | some o => { a with option_answer := a.option_answer ++ [o.id] }
      | Option.none => a
    else a
  else if q.question_type == Question.TYPE_CHECKBOX then
    let values : List String :=
      match v with
      | .strList l => l
      | _ => if v.truthy then [v.pyStr] else []
    let opts := q.get_options.filter (fun o => values.contains o.value)
    if !opts.isEmpty then { a with option_answer := a.option_answer ++ opts.map (·.id) } else a
  else if q.question_type == Question.TYPE_NUMBER then
    { a with number_answer := match v with | .num x => some x | _ => Option.none }
  else if q.question_type == Question.TYPE_DATE then
    { a with date_answer := match v with | .date d => some d | _ => Option.none }
  else if q.question_type == Question.TYPE_FILE then
    { a with text_answer := "" }
  else
    { a with text_answer := if v == PyValue.none then "" else v.pyStr }

/-- Uniqueness key of the `Answer` table: the `unique_together`
`(response, question)` pair (models.py line 330). -/
def answerKey (resp qid : Nat) (a : Answer) : Bool :=
  a.response_id == resp && a.question_id == qid

/-- Model of the body of the `save_answers` loop for one question
(forms.py lines 344-380): `Answer.objects.get_or_create` on the
`(response, question)` key, then clear the slots, set the slot for the
question's type, and `answer.save()` (an update in place of the row with
that key, or an insert of the fresh row). -/
def writeAnswer (q : Question) (v : PyValue) (resp : Nat) (store : List Answer) : List Answer :=
  match store.find? (answerKey resp q.id) with
  | some _ =>
      store.map (fun a => if answerKey resp q.id a then updateAnswerValue q v (clearSlots a) else a)
  | Option.none => store ++ [updateAnswerValue q v (clearSlots (Answer.new resp q.id))]

/-- Model of `ResponseForm.save_answers` (forms.py lines 337-380): iterate
over all questions of the questionnaire and persist an `Answer` for every
question whose field name is a key of `cleaned_data` — there is no filtering
by branch activation or by emptiness of the value. -/
def save_answers (questions : List Question) (cd : CleanedData) (resp : Nat)
    (store : List Answer) : List Answer :=
  match questions with
  | [] => store
  | q :: rest =>
    match cleanedGet cd q.id with
    | some v => save_answers rest cd resp (writeAnswer q v resp store)
    | Option.none => save_answers rest cd resp store

/-- Modelled from the spec: the Branch Evaluator.  The server-side sources
contain no activation logic (`ResponseForm.__init__`, forms.py lines 177-204,
loads every question; the visibility walk lives in the template/JS layer,
which is not part of the Python sources).  Following the specification's
contract, a question with no `depends_on_question` is active; a dependent
question is active iff the raw submitted value of its parent string-equals
its trigger value and the parent is active, the walk being bounded by the
graph size. -/
def is_active_fuel (qs : List Question) (raw : Nat → String) : Nat → Question → Bool
  | 0, _ => false
  | fuel+1, q =>
    match q.depends_on_question with
    | Option.none => true
    | some pid =>
      match qs.find? (fun p => p.id == pid) with
      | Option.none => false
      | some p => (raw pid == q.depends_on_value.getD "") && is_active_fuel qs raw fuel p

/-- Modelled from the spec: activation of one question against the raw
submitted answer map, with the walk bounded by the number of questions. -/
def is_active (qs : List Question) (raw : Nat → String) (q : Question) : Bool :=
  is_active_fuel qs raw qs.length q

/-- Sanity: Scenario-B-shaped graph, root answered no. -/
def exSmoker : Question :=
  { id := 1, questionnaire_id := 1, text := "Do you smoke?", question_type := "radio"
    is_required := true, display_order := 1
    depends_on_question := Option.none, depends_on_value := Option.none
    min_value := Option.none, max_value := Option.none
    options := [{ id := 11, text := "Yes", value := "yes", display_order := 1 },
                { id := 12, text := "No", value := "no", display_order := 2 }] }

/-- Sanity: dependent question triggered by answer yes. -/
def exPacks : Question :=
  { id := 2, questionnaire_id := 1, text := "How many packs a day?", question_type := "text"
    is_required := true, display_order := 2
    depends_on_question := some 1, depends_on_value := some "yes"
    min_value := Option.none, max_value := Option.none, options := [] }

/-- Python runtime error raised on a call-arity mismatch. -/
inductive PyError where
  | typeError (msg : String)
  deriving Repr, DecidableEq

/-- Model of calling `ResponseForm.save_answers` with an explicit Python
argument list: the method declares one required positional parameter
`response` (forms.py line 337), so a call with any other number of arguments
raises `TypeError` before the body runs. -/
def call_save_answers (args : List Nat) (questions : List Question) (cd : CleanedData)
    (store : List Answer) : Except PyError (List Answer) :=
  match args with
  | [response] => Except.ok (save_answers questions cd response store)
  | _ => Except.error
      (PyError.typeError "save_answers() missing 1 required positional argument: response")

/-- Outcome of one POST to `questionnaire_start`: either the saved response id
with the resulting answer table, or the list of field errors. -/
inductive SubmitOutcome where
  | saved (response_id : Nat) (store : List Answer)
  | rejected (field_errors : List Nat)
  deriving Repr, DecidableEq

/-- Model of the POST branch of `questionnaire_start` (views.py lines
299-338): when the form validates, the response row is saved and then
`form.save_answers()` is called with no arguments (views.py line 320), even
though the method requires the `response` argument; otherwise the field
errors are returned. -/
def questionnaire_start_post (questions : List Question) (cd : CleanedData) (resp : Nat)
    (store : List Answer) : Except PyError SubmitOutcome :=
  if (ResponseForm.clean questions cd).isEmpty then
    (call_save_answers [] questions cd store).map (fun st => SubmitOutcome.saved resp st)
  else
    Except.ok (SubmitOutcome.rejected (ResponseForm.clean questions cd))

/-- Number of populated value slots of an `Answer` row, over all five
kind-specific slots (text, number, date, file, selected options). -/
def populatedSlotCount (a : Answer) : Nat :=
  (if a.text_answer != "" then 1 else 0) + (if a.number_answer.isSome then 1 else 0) +
  (if a.date_answer.isSome then 1 else 0) + (if a.file_answer.isSome then 1 else 0) +
  (if !a.option_answer.isEmpty then 1 else 0)

/-- Number of populated slots among the four slots that
`ResponseForm.save_answers` clears before a write (text, number, date,
selected options) — every slot except `file_answer`. -/
def clearedSlotCount (a : Answer) : Nat :=
  (if a.text_answer != "" then 1 else 0) + (if a.number_answer.isSome then 1 else 0) +
  (if a.date_answer.isSome then 1 else 0) + (if !a.option_answer.isEmpty then 1 else 0)

/-- Shape of the Django form field built by `ResponseForm.get_question_field`
(forms.py lines 206-314): the field class with its kind-specific data, plus
the widget name where the source selects one. -/
inductive DjangoField where
  | charField (widget : String)
  | emailField
  | floatField (min_value max_value : Option Int)
  | dateField
  | fileField
  | timeField
  | dateTimeField
  | choiceField (widget : String) (choices : List (String × String))
  | multipleChoiceField (choices : List (String × String))
  deriving Repr, DecidableEq

/-- Discriminator for the free-text field classes (`forms.CharField`). -/
def DjangoField.isCharField : DjangoField → Bool
  | .charField _ => true
  | _ => false

/-- Descriptor produced by `ResponseForm.get_question_field`: label, required
flag (copies of the question's) and the field shape. -/
structure FieldDesc where
  label : String
  required : Bool
  field : DjangoField
  deriving Repr, DecidableEq

/-- Model of `ResponseForm.get_question_field` (forms.py lines 206-314).
The source's late `elif question_type == 'textarea'` and `== 'date'` branches
are unreachable (those strings are caught by the first membership test) and
are therefore absorbed by it; `'time'`, `'datetime'` and the final default
branch are kept.  Rating choices enumerate `range(int(min), int(max)+1)`. -/
def get_question_field (q : Question) : FieldDesc :=
  let field :=
    if [Question.TYPE_TEXT, Question.TYPE_EMAIL, Question.TYPE_TEXTAREA, Question.TYPE_NUMBER,
        Question.TYPE_DATE, Question.TYPE_FILE].contains q.question_type then
      if q.question_type == Question.TYPE_EMAIL then DjangoField.emailField
      else if q.question_type == Question.TYPE_NUMBER then
        DjangoField.floatField q.min_value q.max_value
      else if q.question_type == Question.TYPE_DATE then DjangoField.dateField
      else if q.question_type == Question.TYPE_FILE then DjangoField.fileField
      else if q.question_type == Question.TYPE_TEXTAREA then DjangoField.charField "textarea"
      else DjangoField.charField "textinput"
    else if [Question.TYPE_RADIO, Question.TYPE_SELECT, Question.TYPE_CHECKBOX,
             Question.TYPE_RATING].contains q.question_type then
      let choices :=
        if q.question_type == Question.TYPE_RATING then
          let mn := q.min_value.getD 1
          let mx := q.max_value.getD 5
          (List.range (Int.toNat (mx - mn + 1))).map
            (fun i => (toString (mn + Int.ofNat i), toString (mn + Int.ofNat i)))
        else q.get_options.map (fun o => (o.value, o.text))
      if q.question_type == Question.TYPE_RADIO then DjangoField.choiceField "radio" choices
      else if q.question_type == Question.TYPE_SELECT then
        DjangoField.choiceField "select" (("", "---------") :: choices)
      else if q.question_type == Question.TYPE_RATING then
        DjangoField.choiceField "rating-radio" choices
      else DjangoField.multipleChoiceField choices
    else if q.question_type == "time" then DjangoField.timeField
    else if q.question_type == "datetime" then DjangoField.dateTimeField
    else DjangoField.charField "textinput"
  { label := q.text, required := q.is_required, field := field }

/-- Model of the dependency validation in `QuestionForm.clean` (forms.py
lines 87-94): a validation error is raised iff a dependency is set, the
instance has a questionnaire id, and the dependency belongs to a different
questionnaire.  This is the only structural validation of the dependency
graph in the sources; no cycle check exists. -/
def QuestionForm.dependencyErrors (depends_on : Option Question)
    (questionnaire_id : Option Nat) : List String :=
  match depends_on, questionnaire_id with
  | some d, some qn =>
      if d.questionnaire_id != qn then
        ["Dependency must be a question from the same questionnaire."]
      else []
  | _, _ => []

/-- Optional root free-text question used in concrete submissions. -/
def exDrinks : Question :=
  { id := 3, questionnaire_id := 1, text := "Do you drink?", question_type := "text"
    is_required := false, display_order := 3
    depends_on_question := Option.none, depends_on_value := Option.none
    min_value := Option.none, max_value := Option.none, options := [] }

/-- Raw submitted map of the C1 counterexample: root answered `no`, the
dependent question carrying a stray value, the optional question empty. -/
def exRawC1 : Nat → String :=
  fun i => if i == 1 then "no" else if i == 2 then "stray" else ""

/-- Cleaned data corresponding to `exRawC1`. -/
def exCleanedC1 : CleanedData :=
  [(1, PyValue.str "no"), (2, PyValue.str "stray"), (3, PyValue.str "")]

/-- Free-text question used where a prior answer holds a file. -/
def exNotes : Question :=
  { id := 5, questionnaire_id := 1, text := "Notes", question_type := "text"
    is_required := false, display_order := 5
    depends_on_question := Option.none, depends_on_value := Option.none
    min_value := Option.none, max_value := Option.none, options := [] }

/-- Prior `Answer` row for `exNotes` whose file slot is populated. -/
def exPriorAnswer : Answer :=
  { response_id := 7, question_id := 5, text_answer := "", number_answer := Option.none
    date_answer := Option.none, file_answer := some "scan.pdf", option_answer := [] }

/-- Question whose dependency points at itself (a 1-cycle) inside
questionnaire 1. -/
def exSelf : Question :=
  { id := 9, questionnaire_id := 1, text := "Loop", question_type := "text"
    is_required := false, display_order := 9
    depends_on_question := some 9, depends_on_value := some "yes"
    min_value := Option.none, max_value := Option.none, options := [] }

/-- Single-choice question with zero configured options. -/
def exEmptyRadio : Question :=
  { id := 4, questionnaire_id := 1, text := "Pick one", question_type := "radio"
    is_required := true, display_order := 4
    depends_on_question := Option.none, depends_on_value := Option.none
    min_value := Option.none, max_value := Option.none, options := [] }

/-- The store holds a row for the `(response, question)` key of `q`, and
every row with that key is a fixed point of writing `v` for `q`. -/
def writtenFor (q : Question) (v : PyValue) (resp : Nat) (store : List Answer) : Prop :=
  (∃ a ∈ store, answerKey resp q.id a = true) ∧
  ∀ a ∈ store, answerKey resp q.id a = true → updateAnswerValue q v (clearSlots a) = a

/-- Uniqueness of the `(response, question)` key across the answer table —
the `unique_together` constraint of `Answer.Meta` (models.py line 330). -/
def uniqueKeys (store : List Answer) : Prop :=
  store.Pairwise (fun a b => ¬(a.response_id = b.response_id ∧ a.question_id = b.question_id))

/-- Modelled from the spec: node of the questionnaire forest as used by the
display-number assigner.  The sources only call `Question.get_display_number`
(views_builder.py line 218, views.py line 540, test_branching.py) on a
`Question` variant carrying `order`, `parent` and `trigger_answer` whose
definition is not in the tree; a node is its id, its sibling order, and an
optional parent id. -/
structure QNode where
  id : Nat
  order : Nat
  parent : Option Nat
  deriving Repr, DecidableEq

/-- Strict sibling ordering: by `order`, ties broken by creation id, mirroring
the queryset ordering `order_by('order', 'id')` (views_builder.py line 207). -/
def sibKeyLt (a b : QNode) : Bool :=
  (a.order < b.order) || (a.order == b.order && a.id < b.id)

/-- Modelled from the spec: 1-based index of a question among the siblings
sharing its parent, counted in sibling order. -/
def sibling_index (qs : List QNode) (q : QNode) : Nat :=
  1 + (qs.filter (fun r => r.parent == q.parent)).countP (fun r => sibKeyLt r q)

/-- Modelled from the spec: the display-number walk.  A root is numbered by
its sibling index; a child is numbered `<parent-number>.<child-index>`.  The
walk up the parent chain is bounded by the graph size, as in the spec's cycle
guard. -/
def display_number_fuel (qs : List QNode) : Nat → QNode → String
  | 0, q => toString (sibling_index qs q)
  | fuel+1, q =>
    match q.parent with
    | Option.none => toString (sibling_index qs q)
    | some pid =>
      match qs.find? (fun p => p.id == pid) with
      | Option.none => toString (sibling_index qs q)
      | some p => display_number_fuel qs fuel p ++ "." ++ toString (sibling_index qs q)

/-- Modelled from the spec: `Question.get_display_number`, the dotted display
number of one question of the forest. -/
def get_display_number (qs : List QNode) (q : QNode) : String :=
  display_number_fuel qs qs.length q

/-- Root node of the `test_branching.py` forest. -/
def exQ1 : QNode := { id := 1, order := 1, parent := Option.none }

/-- First child of `exQ1` (trigger branch yes). -/
def exQ1a : QNode := { id := 2, order := 2, parent := some 1 }

/-- Second child of `exQ1` (trigger branch no). -/
def exQ1b : QNode := { id := 3, order := 3, parent := some 1 }

/-- Second root of the `test_branching.py` forest. -/
def exQ2 : QNode := { id := 4, order := 4, parent := Option.none }

/-- The `test_branching.py` forest. -/
def exForest : List QNode := [exQ1, exQ1a, exQ1b, exQ2]

example : is_active [exSmoker, exPacks] (fun i => if i == 1 then "no" else "") exSmoker = true := by
  decide

example : is_active [exSmoker, exPacks] (fun i => if i == 1 then "no" else "") exPacks = false := by
  decide

example : is_active [exSmoker, exPacks] (fun i => if i == 1 then "yes" else "") exPacks = true := by
  decide

example :
    ResponseForm.clean [exSmoker, exPacks] [(1, PyValue.str "no"), (2, PyValue.str "")] = [2] := by
  decide

example :
    (save_answers [exSmoker, exPacks] [(1, PyValue.str "no"), (2, PyValue.str "stray")] 7 []).map
      (·.question_id) = [1, 2] := by
  decide

/-- C1 fails on the code: with the root answered `no`, the dependent question
(trigger `yes`) is inactive, yet `save_answers` persists an `Answer` row for
its stray submitted value, and it also persists a row for the optional
question whose raw value is empty. -/
theorem save_answers_persists_inactive_and_empty :
    ((save_answers [exSmoker, exPacks, exDrinks] exCleanedC1 7 []).map
        (fun a => a.question_id) = [1, 2, 3]) ∧
    is_active [exSmoker, exPacks, exDrinks] exRawC1 exPacks = false ∧
    exRawC1 3 = "" := by
  decide

/-- C2 is the claim the code contradicts: on the same graph, the required
dependent question is inactive (root answered `no`), yet `ResponseForm.clean`
raises the required-field error for it. -/
theorem required_error_raised_for_inactive_question :
    ResponseForm.clean [exSmoker, exPacks] [(1, PyValue.str "no"), (2, PyValue.str "")] = [2] ∧
    is_active [exSmoker, exPacks] exRawC1 exPacks = false := by
  decide

/-- C4 fails on the code: whenever the form validates (no required-field
errors), the success path of `questionnaire_start` calls
`form.save_answers()` without the required `response` argument (views.py line
320) and raises `TypeError`; no submission ever reaches the success JSON. -/
theorem questionnaire_start_success_path_raises
    (questions : List Question) (cd : CleanedData) (resp : Nat) (store : List Answer)
    (hvalid : ResponseForm.clean questions cd = []) :
    questionnaire_start_post questions cd resp store =
      Except.error
        (PyError.typeError "save_answers() missing 1 required positional argument: response") := by
  unfold questionnaire_start_post call_save_answers
  simp [hvalid, Except.map]

/-- Witness for the C4 theorem: a concrete valid submission raises. -/
theorem questionnaire_start_success_path_raises_witness :
    questionnaire_start_post [exSmoker] [(1, PyValue.str "yes")] 7 [] =
      Except.error
        (PyError.typeError "save_answers() missing 1 required positional argument: response") :=
  questionnaire_start_success_path_raises [exSmoker] [(1, PyValue.str "yes")] 7 [] (by decide)

/-- C5 fails on the code: overwriting an `Answer` whose `file_answer` is
populated with a text value leaves both the text and the file slot populated,
because the clearing block of `save_answers` never clears `file_answer`. -/
theorem overwrite_leaves_two_populated_slots :
    writeAnswer exNotes (PyValue.str "hi") 7 [exPriorAnswer] =
      [{ response_id := 7, question_id := 5, text_answer := "hi", number_answer := Option.none
         date_answer := Option.none, file_answer := some "scan.pdf", option_answer := [] }] ∧
    populatedSlotCount
      ((writeAnswer exNotes (PyValue.str "hi") 7 [exPriorAnswer]).headD (Answer.new 0 0)) = 2 := by
  decide

/-- C5 amended: a write clears only the text, number, date and option slots
before populating the slot for the question's type, so after a write at most
one of those four slots is populated while the `file_answer` slot is carried
over unchanged from the prior row. -/
theorem overwrite_clears_nonfile_slots (q : Question) (v : PyValue) (a : Answer) :
    clearedSlotCount (updateAnswerValue q v (clearSlots a)) ≤ 1 ∧
    (updateAnswerValue q v (clearSlots a)).file_answer = a.file_answer := by
  unfold updateAnswerValue clearSlots
  repeat' split
  all_goals simp_all [clearedSlotCount]
  all_goals repeat' split
  all_goals simp_all

/-- C6 fails on the code: a question made its own parent passes the only
dependency validation in the sources without any error — no cycle is ever
detected, and no `GraphError` exists. -/
theorem self_cycle_passes_validation :
    QuestionForm.dependencyErrors (some exSelf) (some 1) = [] ∧
    exSelf.depends_on_question = some exSelf.id := by
  decide

/-- C6 amended: the only graph validation rejects exactly a dependency into a
different questionnaire; any dependency within the same questionnaire —
including a self-cycle or a 2-node loop — raises no error. -/
theorem dependency_validation_rejects_only_cross_questionnaire
    (dep : Option Question) (qn : Option Nat) :
    QuestionForm.dependencyErrors dep qn ≠ [] ↔
      ∃ d n, dep = some d ∧ qn = some n ∧ d.questionnaire_id ≠ n := by
  cases dep with
  | none => simp [QuestionForm.dependencyErrors]
  | some d =>
    cases qn with
    | none => simp [QuestionForm.dependencyErrors]
    | some n =>
      by_cases h : d.questionnaire_id = n
      · simp [QuestionForm.dependencyErrors, h]
      · simp [QuestionForm.dependencyErrors, h, bne_iff_ne]

/-- C9 fails on the code: a radio question with zero options is built as a
`ChoiceField` with an empty choice list, not as a free-text `CharField`. -/
theorem empty_radio_not_built_as_free_text :
    (get_question_field exEmptyRadio).field = DjangoField.choiceField "radio" [] ∧
    ((get_question_field exEmptyRadio).field).isCharField = false := by
  decide

/-- C9 amended: for every single-choice (radio) question with zero options,
the field builder totally (without any error path) produces a choice field
with an empty choice list, copying the question's required flag and label;
the free-text fallback of the builder is reserved for unrecognized question
type strings. -/
theorem empty_radio_builds_empty_choice_field (q : Question)
    (hty : q.question_type = Question.TYPE_RADIO) (hopts : q.options = []) :
    get_question_field q =
      { label := q.text, required := q.is_required
        field := DjangoField.choiceField "radio" [] } := by
  unfold get_question_field
  simp [hty, hopts, Question.get_options, Question.TYPE_RADIO, Question.TYPE_TEXT,
    Question.TYPE_EMAIL, Question.TYPE_TEXTAREA, Question.TYPE_NUMBER, Question.TYPE_DATE,
    Question.TYPE_FILE, Question.TYPE_SELECT, Question.TYPE_CHECKBOX, Question.TYPE_RATING]

/-- Witness for the C9 amended theorem at the concrete empty-options radio
question. -/
theorem empty_radio_builds_empty_choice_field_witness :
    get_question_field exEmptyRadio =
      { label := "Pick one", required := true
        field := DjangoField.choiceField "radio" [] } :=
  empty_radio_builds_empty_choice_field exEmptyRadio (by decide) (by decide)

/-- C10: `is_complete` holds iff every required question of the questionnaire
has an `Answer` row in the response, and it depends only on which question
ids have rows — branching conditions and the (possibly empty) value slots of
the rows are ignored. -/
theorem is_complete_iff_required_has_answer (qn : Questionnaire)
    (answers answers2 : List Answer) :
    (qn.is_complete answers = true ↔
      ∀ q ∈ qn.questions, q.is_required = true → ∃ a ∈ answers, a.question_id = q.id) ∧
    (answers2.map (fun a => a.question_id) = answers.map (fun a => a.question_id) →
      qn.is_complete answers2 = qn.is_complete answers) := by
  constructor
  · constructor
    · intro h q hq hreq
      by_contra hno
      push_neg at hno
      have hany : qn.questions.any
          (fun q => q.is_required && !(answers.any (fun a => a.question_id == q.id))) = true := by
        refine List.any_eq_true.mpr ⟨q, hq, ?_⟩
        have hfalse : answers.any (fun a => a.question_id == q.id) = false := by
          refine List.any_eq_false.mpr ?_
          intro a ha
          simpa using hno a ha
        simp [hreq, hfalse]
      simp [Questionnaire.is_complete, hany] at h
    · intro h
      have hany : qn.questions.any
          (fun q => q.is_required && !(answers.any (fun a => a.question_id == q.id))) = false := by
        refine List.any_eq_false.mpr ?_
        intro q hq
        by_cases hreq : q.is_required = true
        · obtain ⟨a, ha, hqa⟩ := h q hq hreq
          have : answers.any (fun a => a.question_id == q.id) = true :=
            List.any_eq_true.mpr ⟨a, ha, by simp [hqa]⟩
          simp [this]
        · simp [Bool.eq_false_iff.mpr hreq]
      simp [Questionnaire.is_complete, hany]
  · intro h
    have key : (fun q : Question => q.is_required && !(answers2.any (fun a => a.question_id == q.id)))
        = (fun q : Question => q.is_required && !(answers.any (fun a => a.question_id == q.id))) := by
      funext q
      have hmap : ∀ (l : List Answer) (p : Nat → Bool),
          (l.map (fun a => a.question_id)).any p = l.any (fun a => p a.question_id) := by
        intro l p
        induction l with
        | nil => rfl
        | cons a t ih => simp [ih]
      have h2 : answers2.any (fun a => a.question_id == q.id)
          = answers.any (fun a => a.question_id == q.id) := by
        rw [← hmap answers2 (fun i => i == q.id), ← hmap answers (fun i => i == q.id), h]
      rw [h2]
    simp only [Questionnaire.is_complete, key]

/-- The clearing and per-type update blocks never change a row's key
columns. -/
theorem updateAnswerValue_keeps_key (q : Question) (v : PyValue) (a : Answer) :
    (updateAnswerValue q v a).response_id = a.response_id ∧
    (updateAnswerValue q v a).question_id = a.question_id := by
  unfold updateAnswerValue
  repeat' split
  all_goals simp
  all_goals repeat' split
  all_goals simp

/-- Question ids present after one `writeAnswer`: those of the prior store
plus the written question's id. -/
theorem mem_writeAnswer_keys (q : Question) (v : PyValue) (resp : Nat) (store : List Answer)
    (qid : Nat) :
    (∃ a ∈ writeAnswer q v resp store, a.question_id = qid) ↔
      (∃ a ∈ store, a.question_id = qid) ∨ qid = q.id := by
  have hnewkey : (updateAnswerValue q v (clearSlots (Answer.new resp q.id))).question_id = q.id := by
    rw [(updateAnswerValue_keeps_key q v (clearSlots (Answer.new resp q.id))).2]
    simp [clearSlots, Answer.new]
  unfold writeAnswer
  cases hfind : store.find? (answerKey resp q.id) with
  | none =>
    constructor
    · rintro ⟨a, ha, rfl⟩
      rcases List.mem_append.mp ha with h | h
      · exact Or.inl ⟨a, h, rfl⟩
      · have : a = updateAnswerValue q v (clearSlots (Answer.new resp q.id)) := by simpa using h
        subst this
        exact Or.inr hnewkey
    · rintro (⟨a, ha, rfl⟩ | rfl)
      · exact ⟨a, List.mem_append.mpr (Or.inl ha), rfl⟩
      · exact ⟨updateAnswerValue q v (clearSlots (Answer.new resp q.id)),
          List.mem_append.mpr (Or.inr (by simp)), hnewkey⟩
  | some a0 =>
    have ha0mem : a0 ∈ store := List.mem_of_find?_eq_some hfind
    have ha0key : answerKey resp q.id a0 = true := List.find?_some hfind
    have ha0id : a0.question_id = q.id := by
      simp only [answerKey, Bool.and_eq_true, beq_iff_eq] at ha0key
      exact ha0key.2
    constructor
    · rintro ⟨a, ha, rfl⟩
      obtain ⟨b, hb, hba⟩ := List.mem_map.mp ha
      by_cases hk : answerKey resp q.id b = true
      · right
        rw [← hba]
        simp only [hk, if_true]
        rw [(updateAnswerValue_keeps_key q v (clearSlots b)).2]
        simp only [answerKey, Bool.and_eq_true, beq_iff_eq] at hk
        simp [clearSlots, hk.2]
      · left
        refine ⟨b, hb, ?_⟩
        rw [← hba]
        simp [hk]
    · rintro (⟨a, ha, rfl⟩ | rfl)
      · by_cases hk : answerKey resp q.id a = true
        · refine ⟨updateAnswerValue q v (clearSlots a), List.mem_map.mpr ⟨a, ha, by simp [hk]⟩, ?_⟩
          rw [(updateAnswerValue_keeps_key q v (clearSlots a)).2]
          simp [clearSlots]
        · exact ⟨a, List.mem_map.mpr ⟨a, ha, by simp [hk]⟩, rfl⟩
      · refine ⟨updateAnswerValue q v (clearSlots a0), List.mem_map.mpr ⟨a0, ha0mem, ?_⟩, ?_⟩
        · simp [ha0key]
        · rw [(updateAnswerValue_keeps_key q v (clearSlots a0)).2]
          simp [clearSlots, ha0id]

/-- Question ids present after `save_answers`: those of the prior store plus
every question of the questionnaire whose field has a cleaned entry. -/
theorem mem_save_answers_keys (questions : List Question) (cd : CleanedData) (resp : Nat)
    (store : List Answer) (qid : Nat) :
    (∃ a ∈ save_answers questions cd resp store, a.question_id = qid) ↔
      (∃ a ∈ store, a.question_id = qid) ∨
      ∃ q ∈ questions, q.id = qid ∧ (cleanedGet cd q.id).isSome = true := by
  induction questions generalizing store with
  | nil => simp [save_answers]
  | cons q rest ih =>
    cases hv : cleanedGet cd q.id with
    | none =>
      rw [save_answers, hv, ih]
      constructor
      · rintro (h | h)
        · exact Or.inl h
        · exact Or.inr (by
            obtain ⟨r, hr, hrid, hrcd⟩ := h
            exact ⟨r, List.mem_cons_of_mem q hr, hrid, hrcd⟩)
      · rintro (h | ⟨r, hr, hrid, hrcd⟩)
        · exact Or.inl h
        · rcases List.mem_cons.mp hr with rfl | hr2
          · rw [hv] at hrcd
            simp at hrcd
          · exact Or.inr ⟨r, hr2, hrid, hrcd⟩
    | some v =>
      rw [save_answers, hv, ih, mem_writeAnswer_keys]
      constructor
      · rintro ((h | rfl) | h)
        · exact Or.inl h
        · exact Or.inr ⟨q, List.mem_cons_self q rest, rfl, by rw [hv]; rfl⟩
        · obtain ⟨r, hr, hrid, hrcd⟩ := h
          exact Or.inr ⟨r, List.mem_cons_of_mem q hr, hrid, hrcd⟩
      · rintro (h | ⟨r, hr, hrid, hrcd⟩)
        · exact Or.inl (Or.inl h)
        · rcases List.mem_cons.mp hr with rfl | hr2
          · exact Or.inl (Or.inr hrid.symm)
          · exact Or.inr ⟨r, hr2, hrid, hrcd⟩

/-- C1 amended: starting from a response with no prior answers, the persisted
`Answer` set is exactly the set of questions whose field key is in the
cleaned data — regardless of branch activation and regardless of whether the
submitted value is empty. -/
theorem save_answers_persists_exactly_cleaned_keys (questions : List Question) (cd : CleanedData)
    (resp : Nat) (qid : Nat) :
    (∃ a ∈ save_answers questions cd resp [], a.question_id = qid) ↔
      ∃ q ∈ questions, q.id = qid ∧ (cleanedGet cd q.id).isSome = true := by
  simpa using mem_save_answers_keys questions cd resp [] qid

/-- The per-type update never touches the file slot. -/
theorem updateAnswerValue_keeps_file (q : Question) (v : PyValue) (a : Answer) :
    (updateAnswerValue q v a).file_answer = a.file_answer := by
  unfold updateAnswerValue
  repeat' split
  all_goals simp
  all_goals repeat' split
  all_goals simp

/-- Clearing after a clear-then-update round trip equals clearing alone:
the update only repopulates slots that the next clear resets, and both
preserve the key columns and the file slot. -/
theorem clearSlots_update_clearSlots (q : Question) (v : PyValue) (a : Answer) :
    clearSlots (updateAnswerValue q v (clearSlots a)) = clearSlots a := by
  have hk := updateAnswerValue_keeps_key q v (clearSlots a)
  have hf := updateAnswerValue_keeps_file q v (clearSlots a)
  simp only [clearSlots] at hk hf ⊢
  simp [hk.1, hk.2, hf]

/-- Writing the same value twice to a row equals writing it once. -/
theorem update_clearSlots_idem (q : Question) (v : PyValue) (a : Answer) :
    updateAnswerValue q v (clearSlots (updateAnswerValue q v (clearSlots a)))
      = updateAnswerValue q v (clearSlots a) := by
  rw [clearSlots_update_clearSlots]

/-- A written row keeps the key columns of the row it overwrites. -/
theorem write_row_keeps_key (q : Question) (v : PyValue) (a : Answer) :
    (updateAnswerValue q v (clearSlots a)).response_id = a.response_id ∧
    (updateAnswerValue q v (clearSlots a)).question_id = a.question_id :=
  ⟨(updateAnswerValue_keeps_key q v (clearSlots a)).1,
   (updateAnswerValue_keeps_key q v (clearSlots a)).2⟩

/-- After `writeAnswer q v`, the store is written for `q` and `v`. -/
theorem writeAnswer_written (q : Question) (v : PyValue) (resp : Nat) (store : List Answer) :
    writtenFor q v resp (writeAnswer q v resp store) := by
  unfold writeAnswer
  cases hfind : store.find? (answerKey resp q.id) with
  | none =>
    have hnone := List.find?_eq_none.mp hfind
    constructor
    · refine ⟨updateAnswerValue q v (clearSlots (Answer.new resp q.id)), by simp, ?_⟩
      simp only [answerKey, (write_row_keeps_key q v (Answer.new resp q.id)).1,
        (write_row_keeps_key q v (Answer.new resp q.id)).2]
      simp [Answer.new]
    · intro a ha hk
      rcases List.mem_append.mp ha with h | h
      · exact absurd hk (by simpa using hnone a h)
      · have ha2 : a = updateAnswerValue q v (clearSlots (Answer.new resp q.id)) := by
          simpa using h
        subst ha2
        exact update_clearSlots_idem q v (Answer.new resp q.id)
  | some a0 =>
    have ha0mem : a0 ∈ store := List.mem_of_find?_eq_some hfind
    have ha0key : answerKey resp q.id a0 = true := List.find?_some hfind
    constructor
    · refine ⟨updateAnswerValue q v (clearSlots a0),
        List.mem_map.mpr ⟨a0, ha0mem, by simp [ha0key]⟩, ?_⟩
      simp [answerKey, (write_row_keeps_key q v a0).1, (write_row_keeps_key q v a0).2]
      simp only [answerKey, Bool.and_eq_true, beq_iff_eq] at ha0key
      exact ⟨ha0key.1, ha0key.2⟩
    · intro a ha hk
      obtain ⟨b, hb, hba⟩ := List.mem_map.mp ha
      by_cases hkb : answerKey resp q.id b = true
      · rw [← hba, if_pos hkb]
        exact update_clearSlots_idem q v b
      · rw [← hba, if_neg hkb] at hk ⊢
        exact absurd hk hkb

/-- Writing for a question with a different id preserves writtenness. -/
theorem writeAnswer_preserves_written (qq : Question) (vv : PyValue) (q : Question)
    (v : PyValue) (resp : Nat) (store : List Answer) (hne : qq.id ≠ q.id)
    (hw : writtenFor q v resp store) :
    writtenFor q v resp (writeAnswer qq vv resp store) := by
  obtain ⟨⟨w, hwmem, hwkey⟩, hfix⟩ := hw
  have hwid : w.question_id = q.id := by
    simp only [answerKey, Bool.and_eq_true, beq_iff_eq] at hwkey
    exact hwkey.2
  unfold writeAnswer
  cases hfind : store.find? (answerKey resp qq.id) with
  | none =>
    constructor
    · exact ⟨w, List.mem_append.mpr (Or.inl hwmem), hwkey⟩
    · intro a ha hk
      rcases List.mem_append.mp ha with h | h
      · exact hfix a h hk
      · exfalso
        have ha2 : a = updateAnswerValue qq vv (clearSlots (Answer.new resp qq.id)) := by
          simpa using h
        have haid : a.question_id = qq.id := by
          rw [ha2, (write_row_keeps_key qq vv (Answer.new resp qq.id)).2]
          simp [Answer.new]
        simp only [answerKey, Bool.and_eq_true, beq_iff_eq] at hk
        exact hne (haid ▸ hk.2 ▸ rfl)
  | some a0 =>
    have hwkb : answerKey resp qq.id w = false := by
      simp [answerKey, hwid]
      exact fun _ h => hne h.symm
    constructor
    · exact ⟨w, List.mem_map.mpr ⟨w, hwmem, by simp [hwkb]⟩, hwkey⟩
    · intro a ha hk
      obtain ⟨b, hb, hba⟩ := List.mem_map.mp ha
      by_cases hkb : answerKey resp qq.id b = true
      · exfalso
        have hbid : b.question_id = qq.id := by
          simp only [answerKey, Bool.and_eq_true, beq_iff_eq] at hkb
          exact hkb.2
        have haid : a.question_id = qq.id := by
          rw [← hba, if_pos hkb, (write_row_keeps_key qq vv b).2, hbid]
        simp only [answerKey, Bool.and_eq_true, beq_iff_eq] at hk
        exact hne (haid ▸ hk.2 ▸ rfl)
      · rw [← hba, if_neg hkb] at hk ⊢
        exact hfix b hb hk

/-- Writing into a store that is already written for the same question and
value leaves the store unchanged. -/
theorem writeAnswer_of_written (q : Question) (v : PyValue) (resp : Nat)
    (store : List Answer) (hw : writtenFor q v resp store) :
    writeAnswer q v resp store = store := by
  obtain ⟨⟨w, hwmem, hwkey⟩, hfix⟩ := hw
  unfold writeAnswer
  cases hfind : store.find? (answerKey resp q.id) with
  | none =>
    exact absurd hwkey (by simpa using List.find?_eq_none.mp hfind w hwmem)
  | some a0 =>
    have hpt : ∀ a ∈ store,
        (if answerKey resp q.id a then updateAnswerValue q v (clearSlots a) else a) = a := by
      intro a ha
      by_cases hk : answerKey resp q.id a = true
      · rw [if_pos hk]
        exact hfix a ha hk
      · rw [if_neg hk]
    rw [List.map_congr_left hpt]
    simp

/-- One `writeAnswer` preserves key uniqueness: an existing row is updated in
place (keys unchanged), a missing row is inserted only when no row with its
key exists. -/
theorem writeAnswer_uniqueKeys (q : Question) (v : PyValue) (resp : Nat)
    (store : List Answer) (h : uniqueKeys store) :
    uniqueKeys (writeAnswer q v resp store) := by
  unfold writeAnswer
  cases hfind : store.find? (answerKey resp q.id) with
  | none =>
    have hnone := List.find?_eq_none.mp hfind
    unfold uniqueKeys at h ⊢
    rw [List.pairwise_append]
    refine ⟨h, ?_, ?_⟩
    · simp
    intro a ha b hb
    have hb2 : b = updateAnswerValue q v (clearSlots (Answer.new resp q.id)) := by simpa using hb
    have hbr : b.response_id = resp := by
      rw [hb2, (write_row_keeps_key q v (Answer.new resp q.id)).1]
      simp [Answer.new]
    have hbq : b.question_id = q.id := by
      rw [hb2, (write_row_keeps_key q v (Answer.new resp q.id)).2]
      simp [Answer.new]
    intro hcon
    have hka : answerKey resp q.id a = true := by
      simp [answerKey, hcon.1.trans hbr, hcon.2.trans hbq]
    have hna : ¬answerKey resp q.id a = true := by simpa using hnone a ha
    exact hna hka
  | some a0 =>
    unfold uniqueKeys at h ⊢
    refine List.Pairwise.map _ ?_ h
    intro a b hab hcon
    apply hab
    by_cases hka : answerKey resp q.id a = true <;>
      by_cases hkb : answerKey resp q.id b = true <;>
      simp only [hka, hkb, if_pos, if_neg, Bool.false_eq_true, not_false_eq_true,
        (write_row_keeps_key q v a).1, (write_row_keeps_key q v a).2,
        (write_row_keeps_key q v b).1, (write_row_keeps_key q v b).2, ite_true, ite_false] at hcon <;>
      exact hcon

/-- `save_answers` preserves key uniqueness. -/
theorem save_answers_uniqueKeys (questions : List Question) (cd : CleanedData) (resp : Nat)
    (store : List Answer) (h : uniqueKeys store) :
    uniqueKeys (save_answers questions cd resp store) := by
  induction questions generalizing store with
  | nil => exact h
  | cons q0 rest ih =>
    rw [save_answers]
    cases hv : cleanedGet cd q0.id with
    | none => exact ih store h
    | some v0 => exact ih _ (writeAnswer_uniqueKeys q0 v0 resp store h)

/-- Persisting questions whose ids all differ from `q.id` preserves
writtenness for `q`. -/
theorem save_answers_preserves_written (questions : List Question) (cd : CleanedData)
    (resp : Nat) (store : List Answer) (q : Question) (v : PyValue)
    (hq : q.id ∉ questions.map (fun r => r.id)) (hw : writtenFor q v resp store) :
    writtenFor q v resp (save_answers questions cd resp store) := by
  induction questions generalizing store with
  | nil => exact hw
  | cons q0 rest ih =>
    simp only [List.map_cons, List.mem_cons, not_or] at hq
    rw [save_answers]
    cases hv : cleanedGet cd q0.id with
    | none => exact ih store hq.2 hw
    | some v0 =>
      exact ih _ hq.2
        (writeAnswer_preserves_written q0 v0 q v resp store (fun e => hq.1 e.symm) hw)

/-- After `save_answers`, the store is written for every question with a
cleaned entry, provided question ids are distinct. -/
theorem save_answers_written (questions : List Question) (cd : CleanedData) (resp : Nat)
    (store : List Answer) (hnd : (questions.map (fun r => r.id)).Nodup) :
    ∀ q ∈ questions, ∀ v, cleanedGet cd q.id = some v →
      writtenFor q v resp (save_answers questions cd resp store) := by
  induction questions generalizing store with
  | nil => intro q hq; cases hq
  | cons q0 rest ih =>
    simp only [List.map_cons, List.nodup_cons] at hnd
    intro q hq v hv
    rw [save_answers]
    rcases List.mem_cons.mp hq with rfl | hq2
    · rw [hv]
      exact save_answers_preserves_written rest cd resp _ q v hnd.1
        (writeAnswer_written q v resp store)
    · cases hv0 : cleanedGet cd q0.id with
      | none => exact ih store hnd.2 q hq2 v hv
      | some v0 => exact ih _ hnd.2 q hq2 v hv

/-- Running `save_answers` on a store already written for every question
with a cleaned entry changes nothing. -/
theorem save_answers_of_written (questions : List Question) (cd : CleanedData) (resp : Nat)
    (store : List Answer)
    (h : ∀ q ∈ questions, ∀ v, cleanedGet cd q.id = some v → writtenFor q v resp store) :
    save_answers questions cd resp store = store := by
  induction questions with
  | nil => rfl
  | cons q0 rest ih =>
    rw [save_answers]
    cases hv : cleanedGet cd q0.id with
    | none => exact ih (fun r hr v hv2 => h r (List.mem_cons_of_mem q0 hr) v hv2)
    | some v0 =>
      show save_answers rest cd resp (writeAnswer q0 v0 resp store) = store
      rw [writeAnswer_of_written q0 v0 resp store (h q0 (List.mem_cons_self q0 rest) v0 hv)]
      exact ih (fun r hr v hv2 => h r (List.mem_cons_of_mem q0 hr) v hv2)

/-- C7: with distinct question ids and a key-unique prior table,
re-submitting the same response with the same cleaned answers changes
nothing: the resulting table is key-unique (at most one `Answer` per
`(response, question)` pair) and a second identical `save_answers` run
returns the table of the first run unchanged. -/
theorem resubmission_idempotent_no_duplicates (questions : List Question) (cd : CleanedData)
    (resp : Nat) (store : List Answer)
    (hnd : (questions.map (fun q => q.id)).Nodup) (hu : uniqueKeys store) :
    uniqueKeys (save_answers questions cd resp store) ∧
    save_answers questions cd resp (save_answers questions cd resp store)
      = save_answers questions cd resp store := by
  refine ⟨save_answers_uniqueKeys questions cd resp store hu, ?_⟩
  exact save_answers_of_written questions cd resp _
    (save_answers_written questions cd resp store hnd)

/-- Witness for the C7 theorem at a concrete two-question re-submission. -/
theorem resubmission_idempotent_no_duplicates_witness :
    uniqueKeys (save_answers [exSmoker, exPacks]
        [(1, PyValue.str "yes"), (2, PyValue.str "2")] 7 []) ∧
    save_answers [exSmoker, exPacks] [(1, PyValue.str "yes"), (2, PyValue.str "2")] 7
        (save_answers [exSmoker, exPacks] [(1, PyValue.str "yes"), (2, PyValue.str "2")] 7 [])
      = save_answers [exSmoker, exPacks] [(1, PyValue.str "yes"), (2, PyValue.str "2")] 7 [] :=
  resubmission_idempotent_no_duplicates [exSmoker, exPacks]
    [(1, PyValue.str "yes"), (2, PyValue.str "2")] 7 [] (by decide) (by simp [uniqueKeys])

/-- With distinct ids, `find?` by id returns exactly the member with that
id. -/
theorem find?_id_of_nodup (qs : List Question) (p : Question)
    (hids : (qs.map (fun r => r.id)).Nodup) (hp : p ∈ qs) :
    qs.find? (fun r => r.id == p.id) = some p := by
  induction qs with
  | nil => cases hp
  | cons a t ih =>
    simp only [List.map_cons, List.nodup_cons] at hids
    rcases List.mem_cons.mp hp with rfl | hmem
    · rw [List.find?_cons_of_pos]
      simp
    · by_cases ha : a.id = p.id
      · exact absurd (List.mem_map.mpr ⟨p, hmem, ha.symm⟩) hids.1
      · rw [List.find?_cons_of_neg _ (by simpa using ha)]
        exact ih hids.2 hmem

/-- One-step unfolding of the bounded branch walk. -/
theorem is_active_fuel_unfold (qs : List Question) (raw : Nat → String) (n : Nat)
    (q : Question) :
    is_active_fuel qs raw (n + 1) q =
      match q.depends_on_question with
      | Option.none => true
      | some pid =>
        match qs.find? (fun r => r.id == pid) with
        | Option.none => false
        | some p => (raw pid == q.depends_on_value.getD "") && is_active_fuel qs raw n p := rfl

/-- Any fuel above the dependency depth computes the same activation: the
walk stops at a root (or a dangling reference) before the fuel runs out. -/
theorem is_active_fuel_stable (qs : List Question) (raw : Nat → String) (depth : Nat → Nat)
    (hdep : ∀ r ∈ qs, ∀ p ∈ qs, r.depends_on_question = some p.id →
      depth p.id < depth r.id) :
    ∀ d, ∀ q ∈ qs, depth q.id = d → ∀ f1 f2, d < f1 → d < f2 →
      is_active_fuel qs raw f1 q = is_active_fuel qs raw f2 q := by
  intro d
  induction d using Nat.strong_induction_on with
  | _ d ih =>
    intro q hq hd f1 f2 hf1 hf2
    match f1, f2 with
    | g1+1, g2+1 =>
      rw [is_active_fuel_unfold qs raw g1 q, is_active_fuel_unfold qs raw g2 q]
      cases hp : q.depends_on_question with
      | none => rfl
      | some pid =>
        show (match qs.find? (fun r => r.id == pid) with
              | Option.none => false
              | some p => (raw pid == q.depends_on_value.getD "") && is_active_fuel qs raw g1 p)
            = (match qs.find? (fun r => r.id == pid) with
              | Option.none => false
              | some p => (raw pid == q.depends_on_value.getD "") && is_active_fuel qs raw g2 p)
        cases hfind : qs.find? (fun r => r.id == pid) with
        | none => rfl
        | some p =>
          have hpmem : p ∈ qs := List.mem_of_find?_eq_some hfind
          have hpid : p.id = pid := by simpa using List.find?_some hfind
          have hlt : depth p.id < d := by
            rw [← hd]
            exact hdep q hq p hpmem (by rw [hpid, hp])
          show ((raw pid == q.depends_on_value.getD "") && is_active_fuel qs raw g1 p)
            = ((raw pid == q.depends_on_value.getD "") && is_active_fuel qs raw g2 p)
          rw [ih (depth p.id) hlt p hpmem rfl g1 g2 (by omega) (by omega)]

/-- C3 (modelled from the spec): under an acyclic dependency graph with
distinct question ids, a question with no dependency is active, and a
dependent question is active iff the raw submitted value of its parent
string-equals the trigger value and the parent is itself active. -/
theorem is_active_spec (qs : List Question) (raw : Nat → String) (depth : Nat → Nat)
    (hids : (qs.map (fun r => r.id)).Nodup)
    (hdep : ∀ r ∈ qs, ∀ p ∈ qs, r.depends_on_question = some p.id →
      depth p.id < depth r.id)
    (hbound : ∀ r ∈ qs, depth r.id < qs.length) :
    ∀ q ∈ qs,
      (q.depends_on_question = Option.none → is_active qs raw q = true) ∧
      (∀ p ∈ qs, q.depends_on_question = some p.id →
        (is_active qs raw q = true ↔
          raw p.id = q.depends_on_value.getD "" ∧ is_active qs raw p = true)) := by
  intro q hq
  obtain ⟨n, hn⟩ : ∃ n, qs.length = n + 1 := by
    refine ⟨qs.length - 1, ?_⟩
    have : 0 < qs.length := List.length_pos_of_mem hq
    omega
  constructor
  · intro hroot
    show is_active_fuel qs raw qs.length q = true
    rw [hn, is_active_fuel_unfold, hroot]
  · intro p hpmem hp
    have hfind : qs.find? (fun r => r.id == p.id) = some p := find?_id_of_nodup qs p hids hpmem
    have hdq : depth p.id < depth q.id := hdep q hq p hpmem hp
    have hbq : depth q.id < qs.length := hbound q hq
    have hswap : is_active_fuel qs raw n p = is_active_fuel qs raw qs.length p := by
      apply is_active_fuel_stable qs raw depth hdep (depth p.id) p hpmem rfl
      · omega
      · omega
    have hq1 : is_active qs raw q
        = ((raw p.id == q.depends_on_value.getD "") && is_active qs raw p) := by
      show is_active_fuel qs raw qs.length q
        = ((raw p.id == q.depends_on_value.getD "") && is_active_fuel qs raw qs.length p)
      conv_lhs => rw [hn]
      rw [is_active_fuel_unfold, hp]
      show (match qs.find? (fun r => r.id == p.id) with
            | Option.none => false
            | some r => (raw p.id == q.depends_on_value.getD "") && is_active_fuel qs raw n r)
          = ((raw p.id == q.depends_on_value.getD "") && is_active_fuel qs raw qs.length p)
      rw [hfind]
      show ((raw p.id == q.depends_on_value.getD "") && is_active_fuel qs raw n p)
          = ((raw p.id == q.depends_on_value.getD "") && is_active_fuel qs raw qs.length p)
      rw [hswap]
    rw [hq1]
    simp [Bool.and_eq_true]

/-- Witness for the C3 theorem on the concrete two-question chain with the
trigger matched. -/
theorem is_active_spec_witness :
    is_active [exSmoker, exPacks] (fun i => if i == 1 then "yes" else "") exPacks = true ↔
      (fun i : Nat => if i == 1 then "yes" else "") exSmoker.id
          = exPacks.depends_on_value.getD "" ∧
      is_active [exSmoker, exPacks] (fun i => if i == 1 then "yes" else "") exSmoker = true :=
  ((is_active_spec [exSmoker, exPacks] (fun i => if i == 1 then "yes" else "")
      (fun i => i - 1) (by decide) (by decide) (by decide)) exPacks (by decide)).2
    exSmoker (by decide) (by decide)

/-- The sibling order is irreflexive. -/
theorem sibKeyLt_irrefl (a : QNode) : sibKeyLt a a = false := by
  simp [sibKeyLt]

/-- The sibling order is asymmetric. -/
theorem sibKeyLt_asymm (a b : QNode) (h : sibKeyLt a b = true) : sibKeyLt b a = false := by
  rw [Bool.eq_false_iff]
  intro hba
  simp only [sibKeyLt, Bool.or_eq_true, Bool.and_eq_true, decide_eq_true_eq, beq_iff_eq] at h hba
  omega

/-- In a strictly sorted sibling list, the number of elements below the
element at position `k` is exactly `k`. -/
theorem countP_sorted_get (l : List QNode)
    (hs : l.Pairwise (fun a b => sibKeyLt a b = true)) :
    ∀ (k : Nat) (hk : k < l.length),
      l.countP (fun r => sibKeyLt r (l.get ⟨k, hk⟩)) = k := by
  induction l with
  | nil => intro k hk; simp at hk
  | cons a t ih =>
    intro k hk
    rcases List.pairwise_cons.mp hs with ⟨ha, ht⟩
    cases k with
    | zero =>
      rw [List.countP_cons]
      have h1 : t.countP (fun r => sibKeyLt r a) = 0 := by
        rw [List.countP_eq_zero]
        intro r hr
        simp [sibKeyLt_asymm a r (ha r hr)]
      simp [h1, sibKeyLt_irrefl]
    | succ k2 =>
      have hk2 : k2 < t.length := by simpa using hk
      have hget : (a :: t).get ⟨k2 + 1, hk⟩ = t.get ⟨k2, hk2⟩ := rfl
      rw [List.countP_cons, hget, ih ht k2 hk2]
      have hax : sibKeyLt a (t.get ⟨k2, hk2⟩) = true := ha _ (t.get_mem k2 hk2)
      have hax2 : sibKeyLt a t[k2] = true := hax
      simp [hax2]

/-- With distinct ids, `find?` by id on the forest returns exactly the node
with that id. -/
theorem find?_qnode_id (qs : List QNode) (p : QNode) (pid : Nat)
    (hids : (qs.map (fun r => r.id)).Nodup) (hp : p ∈ qs) (hpid : p.id = pid) :
    qs.find? (fun r => r.id == pid) = some p := by
  induction qs with
  | nil => cases hp
  | cons a t ih =>
    simp only [List.map_cons, List.nodup_cons] at hids
    rcases List.mem_cons.mp hp with rfl | hmem
    · rw [List.find?_cons_of_pos _ (by simp [hpid])]
    · by_cases ha : a.id = pid
      · exact absurd (List.mem_map.mpr ⟨p, hmem, hpid ▸ ha.symm⟩) hids.1
      · rw [List.find?_cons_of_neg _ (by simpa using ha)]
        exact ih hids.2 hmem

/-- One-step unfolding of the display-number walk. -/
theorem display_number_fuel_unfold (qs : List QNode) (n : Nat) (q : QNode) :
    display_number_fuel qs (n + 1) q =
      match q.parent with
      | Option.none => toString (sibling_index qs q)
      | some pid =>
        match qs.find? (fun p => p.id == pid) with
        | Option.none => toString (sibling_index qs q)
        | some p => display_number_fuel qs n p ++ "." ++ toString (sibling_index qs q) := rfl

/-- A root question is numbered by its sibling index at any fuel. -/
theorem display_number_fuel_root (qs : List QNode) (f : Nat) (q : QNode)
    (hq : q.parent = Option.none) :
    display_number_fuel qs f q = toString (sibling_index qs q) := by
  cases f with
  | zero => rfl
  | succ n => rw [display_number_fuel_unfold, hq]

/-- Any fuel above the parent-chain depth computes the same display number. -/
theorem display_number_fuel_stable (qs : List QNode) (depth : Nat → Nat)
    (hdep : ∀ r ∈ qs, ∀ p ∈ qs, r.parent = some p.id → depth p.id < depth r.id) :
    ∀ d, ∀ q ∈ qs, depth q.id = d → ∀ f1 f2, d < f1 → d < f2 →
      display_number_fuel qs f1 q = display_number_fuel qs f2 q := by
  intro d
  induction d using Nat.strong_induction_on with
  | _ d ih =>
    intro q hq hd f1 f2 hf1 hf2
    match f1, f2 with
    | g1+1, g2+1 =>
      rw [display_number_fuel_unfold qs g1 q, display_number_fuel_unfold qs g2 q]
      cases hp : q.parent with
      | none => rfl
      | some pid =>
        show (match qs.find? (fun r => r.id == pid) with
              | Option.none => toString (sibling_index qs q)
              | some p => display_number_fuel qs g1 p ++ "." ++ toString (sibling_index qs q))
            = (match qs.find? (fun r => r.id == pid) with
              | Option.none => toString (sibling_index qs q)
              | some p => display_number_fuel qs g2 p ++ "." ++ toString (sibling_index qs q))
        cases hfind : qs.find? (fun r => r.id == pid) with
        | none => rfl
        | some p =>
          have hpmem : p ∈ qs := List.mem_of_find?_eq_some hfind
          have hpid : p.id = pid := by simpa using List.find?_some hfind
          have hlt : depth p.id < d := by
            rw [← hd]
            exact hdep q hq p hpmem (by rw [hpid, hp])
          show display_number_fuel qs g1 p ++ "." ++ toString (sibling_index qs q)
            = display_number_fuel qs g2 p ++ "." ++ toString (sibling_index qs q)
          rw [ih (depth p.id) hlt p hpmem rfl g1 g2 (by omega) (by omega)]

/-- The sibling index only depends on the forest up to permutation. -/
theorem sibling_index_perm (qs qs2 : List QNode) (hperm : qs2.Perm qs) (q : QNode) :
    sibling_index qs2 q = sibling_index qs q := by
  unfold sibling_index
  rw [(hperm.filter (fun r => r.parent == q.parent)).countP_eq]

/-- The display-number walk only depends on the forest up to permutation,
provided ids are distinct. -/
theorem display_number_fuel_perm (qs qs2 : List QNode) (hperm : qs2.Perm qs)
    (hids : (qs.map (fun r => r.id)).Nodup) :
    ∀ f q, display_number_fuel qs2 f q = display_number_fuel qs f q := by
  intro f
  induction f with
  | zero =>
    intro q
    show toString (sibling_index qs2 q) = toString (sibling_index qs q)
    rw [sibling_index_perm qs qs2 hperm q]
  | succ n ihf =>
    intro q
    rw [display_number_fuel_unfold, display_number_fuel_unfold]
    cases hp : q.parent with
    | none =>
      show toString (sibling_index qs2 q) = toString (sibling_index qs q)
      rw [sibling_index_perm qs qs2 hperm q]
    | some pid =>
      show (match qs2.find? (fun r => r.id == pid) with
            | Option.none => toString (sibling_index qs2 q)
            | some p => display_number_fuel qs2 n p ++ "." ++ toString (sibling_index qs2 q))
          = (match qs.find? (fun r => r.id == pid) with
            | Option.none => toString (sibling_index qs q)
            | some p => display_number_fuel qs n p ++ "." ++ toString (sibling_index qs q))
      cases hfind : qs.find? (fun r => r.id == pid) with
      | none =>
        have hfind2 : qs2.find? (fun r => r.id == pid) = Option.none := by
          rw [List.find?_eq_none] at hfind ⊢
          intro x hx
          exact hfind x (hperm.mem_iff.mp hx)
        rw [hfind2]
        show toString (sibling_index qs2 q) = toString (sibling_index qs q)
        rw [sibling_index_perm qs qs2 hperm q]
      | some p =>
        have hpmem : p ∈ qs := List.mem_of_find?_eq_some hfind
        have hpid : p.id = pid := by simpa using List.find?_some hfind
        have hids2 : (qs2.map (fun r => r.id)).Nodup :=
          (hperm.map (fun r => r.id)).nodup_iff.mpr hids
        have hfind2 : qs2.find? (fun r => r.id == pid) = some p :=
          find?_qnode_id qs2 p pid hids2 (hperm.mem_iff.mpr hpmem) hpid
        rw [hfind2]
        show display_number_fuel qs2 n p ++ "." ++ toString (sibling_index qs2 q)
          = display_number_fuel qs n p ++ "." ++ toString (sibling_index qs q)
        rw [ihf p, sibling_index_perm qs qs2 hperm q]

/-- C8 (modelled from the spec): in a forest with distinct ids and acyclic
parent pointers, (1) a child is numbered `<parent-number>.<child-index>` with
the child index 1-based among the siblings sharing its parent in sibling
order, (2) the k-th root in sibling order is numbered `k+1` — contiguous
integers independent of any root's subtree size — and (3) re-traversing the
unchanged graph in any order yields the same numbers. -/
theorem display_numbering_spec (qs : List QNode) (depth : Nat → Nat)
    (hids : (qs.map (fun r => r.id)).Nodup)
    (hdep : ∀ r ∈ qs, ∀ p ∈ qs, r.parent = some p.id → depth p.id < depth r.id)
    (hbound : ∀ r ∈ qs, depth r.id < qs.length) :
    (∀ q ∈ qs, ∀ p ∈ qs, q.parent = some p.id →
      ∀ (sibs : List QNode), sibs.Perm (qs.filter (fun r => r.parent == q.parent)) →
        sibs.Pairwise (fun a b => sibKeyLt a b = true) →
        ∀ (j : Nat) (hj : j < sibs.length), sibs.get ⟨j, hj⟩ = q →
          get_display_number qs q = get_display_number qs p ++ "." ++ toString (j + 1)) ∧
    (∀ (roots : List QNode), roots.Perm (qs.filter (fun r => r.parent == Option.none)) →
      roots.Pairwise (fun a b => sibKeyLt a b = true) →
      ∀ (k : Nat) (hk : k < roots.length),
        get_display_number qs (roots.get ⟨k, hk⟩) = toString (k + 1)) ∧
    (∀ (qs2 : List QNode), qs2.Perm qs →
      ∀ q, get_display_number qs2 q = get_display_number qs q) := by
  refine ⟨?_, ?_, ?_⟩
  · intro q hq p hpmem hp sibs hsperm hssort j hj hjq
    have hsib : sibling_index qs q = j + 1 := by
      unfold sibling_index
      have hcount : (qs.filter (fun r => r.parent == q.parent)).countP (fun r => sibKeyLt r q)
          = sibs.countP (fun r => sibKeyLt r q) := (hsperm.countP_eq _).symm
      rw [hcount, ← hjq, countP_sorted_get sibs hssort j hj]
      omega
    obtain ⟨n, hn⟩ : ∃ n, qs.length = n + 1 := by
      refine ⟨qs.length - 1, ?_⟩
      have := List.length_pos_of_mem hq
      omega
    have hfind : qs.find? (fun r => r.id == p.id) = some p :=
      find?_qnode_id qs p p.id hids hpmem rfl
    have hswap : display_number_fuel qs n p = display_number_fuel qs qs.length p := by
      apply display_number_fuel_stable qs depth hdep (depth p.id) p hpmem rfl
      · have h1 := hdep q hq p hpmem hp
        have h2 := hbound q hq
        omega
      · have := hbound p hpmem
        omega
    show display_number_fuel qs qs.length q = _
    conv_lhs => rw [hn]
    rw [display_number_fuel_unfold, hp]
    show (match qs.find? (fun r => r.id == p.id) with
          | Option.none => toString (sibling_index qs q)
          | some r => display_number_fuel qs n r ++ "." ++ toString (sibling_index qs q))
        = get_display_number qs p ++ "." ++ toString (j + 1)
    rw [hfind]
    show display_number_fuel qs n p ++ "." ++ toString (sibling_index qs q)
        = get_display_number qs p ++ "." ++ toString (j + 1)
    rw [hswap, hsib]
    rfl
  · intro roots hrperm hrsort k hk
    have hqmem0 : roots.get ⟨k, hk⟩ ∈ roots := roots.get_mem k hk
    have hqfil : roots.get ⟨k, hk⟩ ∈ qs.filter (fun r => r.parent == Option.none) :=
      hrperm.mem_iff.mp hqmem0
    have hqroot : (roots.get ⟨k, hk⟩).parent = Option.none := by
      have := List.of_mem_filter hqfil
      simpa using this
    have hsib : sibling_index qs (roots.get ⟨k, hk⟩) = k + 1 := by
      unfold sibling_index
      rw [hqroot]
      have hcount : (qs.filter (fun r => r.parent == Option.none)).countP
            (fun r => sibKeyLt r (roots.get ⟨k, hk⟩))
          = roots.countP (fun r => sibKeyLt r (roots.get ⟨k, hk⟩)) := (hrperm.countP_eq _).symm
      rw [hcount, countP_sorted_get roots hrsort k hk]
      omega
    show display_number_fuel qs qs.length (roots.get ⟨k, hk⟩) = toString (k + 1)
    rw [display_number_fuel_root qs qs.length (roots.get ⟨k, hk⟩) hqroot, hsib]
  · intro qs2 hperm2 q
    show display_number_fuel qs2 qs2.length q = display_number_fuel qs qs.length q
    rw [hperm2.length_eq]
    exact display_number_fuel_perm qs qs2 hperm2 hids qs.length q

/-- Witness for the C8 theorem: the second root of the concrete forest is
numbered 2 even though the first root has two children. -/
theorem display_numbering_spec_witness :
    get_display_number exForest exQ2 = toString (1 + 1) :=
  (display_numbering_spec exForest (fun i => if i == 2 || i == 3 then 1 else 0)
      (by decide) (by decide) (by decide)).2.1
    [exQ1, exQ2] (by decide) (by decide) 1 (by decide)

